import Mathlib

/-!
Verification of the smolmailer mail relay core against its specification.

The Go source is shallowly embedded: every definition below mirrors a
function of the repository (file and line references in the doc comments).
Machine integers of the source (Go int / int64) are modelled as Int,
byte slices as List Nat, Go errors as Except values or Option String.
-/

namespace Smolmailer

/-- SMTP MAIL options, from emersion/go-smtp MailOptions as used by the
source (fields Size, EnvelopeID, RequireTLS). -/
structure MailOptions where
  size : Int
  envelopeID : String
  requireTLS : Bool
deriving DecidableEq, Repr

/-- SMTP RCPT options (carried along; no fields are inspected by the core). -/
structure RcptOptions where
  dummy : Unit
deriving DecidableEq, Repr

/-- backend.go, type Rcpt: one recipient with its RCPT options. -/
structure Rcpt where
  rcptTo : String
  rcptOpts : Option RcptOptions
deriving DecidableEq, Repr

/-- backend.go, type ReceivedMessage: one message per accepted DATA. -/
structure ReceivedMessage where
  fromAddr : String
  rcptTo : List Rcpt
  body : List Nat
  mailOpts : Option MailOptions
deriving DecidableEq, Repr

/-- backend.go, type QueuedMessage: one delivery job per recipient. -/
structure QueuedMessage where
  fromAddr : String
  rcptTo : String
  body : List Nat
  mailOpts : Option MailOptions
  rcptOpt : Option RcptOptions
  receivedAt : Nat
  lastDeliveryAttempt : Nat
  errorCount : Int
  lastErr : Option String
deriving DecidableEq, Repr

/-- backend.go, ReceivedMessage.QueuedMessages: fan out one QueuedMessage
per recipient, copying body and options, stamping receivedAt = now and
ErrorCount = 0. -/
def ReceivedMessage.queuedMessages (r : ReceivedMessage) (now : Nat) : List QueuedMessage :=
  r.rcptTo.map (fun t =>
    { fromAddr := r.fromAddr
      rcptTo := t.rcptTo
      body := r.body
      mailOpts := r.mailOpts
      rcptOpt := t.rcptOpts
      receivedAt := now
      lastDeliveryAttempt := 0
      errorCount := 0
      lastErr := none })

/-- backend.go, type Session (the submission-session state the SMTP
commands read and write; queue, logger and context are effects modelled
at the call sites). -/
structure Session where
  msg : ReceivedMessage
  expectedBodySize : Int
  authenticatedSubject : String
deriving DecidableEq, Repr

/-- backend.go, NewSession: a fresh session with an empty pending message
and no authenticated subject. -/
def newSessionState : Session :=
  { msg := { fromAddr := "", rcptTo := [], body := [], mailOpts := none }
    expectedBodySize := 0
    authenticatedSubject := "" }

/-- backend.go, Session.Mail: reject if not authenticated, then reject if
the user service does not allow the authenticated subject to send as the
given from address (the error string interpolates s.Msg.From, which is
assigned only after both checks), else record from, size and options.
isValidSender embeds the injected userService.IsValidSender. -/
def Session.mail (isValidSender : String → String → Bool) (s : Session)
    (fromAddr : String) (opts : MailOptions) : Except String Session :=
  if s.authenticatedSubject = "" then
    .error "not authenticated"
  else if ¬ isValidSender s.authenticatedSubject fromAddr then
    .error ("user " ++ s.authenticatedSubject ++ " is not allowed to send emails as "
      ++ s.msg.fromAddr)
  else
    .ok { s with
      msg := { s.msg with fromAddr := fromAddr, mailOpts := some opts }
      expectedBodySize := opts.size }

/-- backend.go, Session.Rcpt: append the recipient. -/
def Session.rcpt (s : Session) (rcptTo : String) (opts : Option RcptOptions) : Session :=
  { s with msg := { s.msg with rcptTo := s.msg.rcptTo ++ [{ rcptTo := rcptTo, rcptOpts := opts }] } }

/-- backend.go, Session.Data: when ExpectedBodySize > 0 the body is read
through io.LimitReader (at most ExpectedBodySize bytes of the stream);
if the number of bytes read differs from ExpectedBodySize the command
fails; otherwise the pending ReceivedMessage is queued.  queueErr models
the result of q.Queue; the returned list holds the messages that were
enqueued. -/
def Session.dataCmd (queueErr : Option String) (s : Session) (stream : List Nat) :
    Except String (Session × List ReceivedMessage) :=
  let bytesRead := if s.expectedBodySize > 0 then stream.take s.expectedBodySize.toNat else stream
  let s1 : Session := { s with msg := { s.msg with body := bytesRead } }
  let n : Int := bytesRead.length
  if s1.expectedBodySize > 0 ∧ n ≠ s1.expectedBodySize then
    .error ("read only " ++ toString n ++ " body bytes, but expected "
      ++ toString s1.expectedBodySize ++ " bytes")
  else
    match queueErr with
    | some e => .error ("failed to queue received msg: " ++ e)
    | none => .ok (s1, [s1.msg])

/-- A CIDR network as the Go net.IPNet used by the backend: the network
address bits and the mask length, over an address of the given bit width
(32 for IPv4, 128 for IPv6). -/
structure IPNet where
  addr : Nat
  maskLen : Nat
  width : Nat
deriving DecidableEq, Repr

/-- Go net.IPNet.Contains: the address matches the network when both agree
on the first maskLen bits (both sides masked with the network mask). -/
def IPNet.containsIP (n : IPNet) (ip : Nat) : Bool :=
  ip / 2 ^ (n.width - n.maskLen) = n.addr / 2 ^ (n.width - n.maskLen)

/-- backend.go, Backend.isValidRemoteAddr: an empty allowlist admits every
peer; otherwise the peer address must parse (remoteAddr = none models a
peer address netip.ParseAddrPort rejects) and be contained in one of the
allowed networks. -/
def isValidRemoteAddr (allowedIPNets : List IPNet) (remoteAddr : Option Nat) : Bool :=
  if allowedIPNets.length = 0 then true
  else
    match remoteAddr with
    | none => false
    | some ip => allowedIPNets.any (fun n => n.containsIP ip)

/-- backend.go, Backend.NewSession: refuse the connection at session
construction when the peer is not admitted, else hand out a fresh
session. -/
def Backend.newSession (allowedIPNets : List IPNet) (remoteAddr : Option Nat) :
    Except String Session :=
  if ¬ isValidRemoteAddr allowedIPNets remoteAddr then
    .error "the client is not allowed to send messages"
  else
    .ok newSessionState

/-- users.go: the two sentinel errors of the user service. -/
inductive AuthError where
  | userNotFound
  | invalidCredentials
deriving DecidableEq, Repr

/-- users.go, UserConfig (username, password digest, permitted from). -/
structure UserConfig where
  username : String
  password : String
  fromAddr : String
deriving DecidableEq, Repr

/-- users.go, UserService.Authenticate: unknown user yields
ErrUserNotFound; an inconsistent map entry, a failed digest decode or a
non-matching digest yield ErrInvalidCredentials.  users embeds the
username-keyed map, decode the crypt decoder (note the source decodes the
supplied password string, not the stored digest) and matchesDigest the
digest comparison. -/
def UserService.authenticate {D : Type} (users : String → Option UserConfig)
    (decode : String → Option D) (matchesDigest : D → String → Bool)
    (username password : String) : Except AuthError Unit :=
  match users username with
  | none => .error .userNotFound
  | some userCfg =>
    if userCfg.username ≠ username then .error .invalidCredentials
    else
      match decode password with
      | none => .error .invalidCredentials
      | some digest =>
        if ¬ matchesDigest digest password then .error .invalidCredentials
        else .ok ()

/-- Parameters handed to the job queue, from the queue embedding
(src/unnamed/part_002, liteq.QueueJobParams as populated by
SQLiteWorkQueue.Queue): queue name, payload, remaining attempts and the
delay in whole seconds that QueueAfter stores into ExecuteAfter. -/
structure QueueJobParams (T : Type) where
  queueName : String
  payload : T
  remainingAttempts : Int
  executeAfterSeconds : Int
  dedupKey : Option String
deriving DecidableEq, Repr

/-- src/unnamed/part_002, QueueWithAttempts: set RemainingAttempts. -/
def QueueWithAttempts {T : Type} (attempts : Int) (p : QueueJobParams T) : QueueJobParams T :=
  { p with remainingAttempts := attempts }

/-- src/unnamed/part_002, QueueAfter: store the delay, converted to whole
seconds, into ExecuteAfter. -/
def QueueAfter {T : Type} (afterSeconds : Int) (p : QueueJobParams T) : QueueJobParams T :=
  { p with executeAfterSeconds := afterSeconds }

/-- A persisted job row. -/
structure Job (T : Type) where
  queueName : String
  payload : T
  remainingAttempts : Int
  executeAfter : Int
deriving DecidableEq, Repr

/-- Modelled from the spec: liteq.QueueJob (github.com/khepin/liteq) is a
third-party collaborator whose implementation is not part of this
repository; spec section 4.1 specifies that Queue inserts a job with
remaining_attempts = attempts and execute_after = now + delay. -/
def queueJobInsert {T : Type} (now : Int) (p : QueueJobParams T) : Job T :=
  { queueName := p.queueName
    payload := p.payload
    remainingAttempts := p.remainingAttempts
    executeAfter := now + p.executeAfterSeconds }

/-- src/unnamed/part_002, SQLiteWorkQueue.Queue: start from the default
parameters for this queue and payload, apply the queue options in order,
then insert the job. -/
def workQueueQueue {T : Type} (now : Int) (queueName : String) (item : T)
    (options : List (QueueJobParams T → QueueJobParams T)) : Job T :=
  queueJobInsert now (options.foldl (fun p o => o p)
    { queueName := queueName
      payload := item
      remainingAttempts := 0
      executeAfterSeconds := 0
      dedupKey := none })

/-- A job is ready to execute at time t once its execute_after has
passed. -/
def Job.executableAt {T : Type} (j : Job T) (t : Int) : Bool :=
  j.executeAfter ≤ t

/-- sender.go, const maxRetries. -/
def maxRetries : Int := 10

/-- sender.go, const defaultRetryPeriod = 4 minutes, in seconds as
QueueAfter stores it. -/
def defaultRetryPeriodSeconds : Int := 240

/-- The default MailOptions value trySend substitutes for a missing
one. -/
def emptyMailOptions : MailOptions :=
  { size := 0, envelopeID := "", requireTLS := false }

/-- The observable outcome of one Sender.trySend invocation: the message
as mutated by the call, whether the giving-up log line was emitted,
the job handed to q.Queue (none when Queue was not called), and the error
returned to the queue worker. -/
structure TrySendResult where
  msg : QueuedMessage
  gaveUpLogged : Bool
  requeuedJob : Option (Job QueuedMessage)
  workerErr : Option String
deriving DecidableEq, Repr

/-- The MailOptions substitution at the top of Sender.trySend: replace a
missing MailOptions with an empty one. -/
def withDefaultMailOpts (msg : QueuedMessage) : QueuedMessage :=
  if msg.mailOpts = none then { msg with mailOpts := some emptyMailOptions } else msg

/-- src/internal/sender/sender.go, Sender.trySend: substitute empty
MailOptions when missing; on delivery failure record LastErr, increment
ErrorCount, log giving up when ErrorCount has reached maxRetries, and
(unconditionally) requeue with attempts = maxRetries - ErrorCount and
delay defaultRetryPeriod; always return nil to the queue worker.
sendResult models the outcome of s.sendMail(msg). -/
def Sender.trySend (now : Int) (sendResult : Option String) (msg0 : QueuedMessage) :
    TrySendResult :=
  let msg1 := withDefaultMailOpts msg0
  match sendResult with
  | none => { msg := msg1, gaveUpLogged := false, requeuedJob := none, workerErr := none }
  | some e =>
    let msg2 := { msg1 with lastErr := some e, errorCount := msg1.errorCount + 1 }
    let gaveUp := msg2.errorCount ≥ maxRetries
    let attempts := maxRetries - msg2.errorCount
    let job := workQueueQueue now "send.queue" msg2
      [QueueWithAttempts attempts, QueueAfter defaultRetryPeriodSeconds]
    { msg := msg2, gaveUpLogged := gaveUp, requeuedJob := some job, workerErr := none }

/-- An MX record (host and preference), from Go net.MX. -/
structure MXRecord where
  host : String
  pref : Nat
deriving DecidableEq, Repr

/-- src/internal/sender/sender.go, lookupMX: sort the resolver records
stably by preference ascending (slices.SortStableFunc with comparator
Pref difference; insertionSort is the stable sort for this order, hence
extensionally the same list). -/
def lookupMX (records : List MXRecord) : List MXRecord :=
  records.insertionSort (fun a b => a.pref ≤ b.pref)

/-- src/internal/sender/sender.go, Sender.sendMail main loop over the
sorted MX records: contact each host in order; on dial or dialog failure
continue with the next; return success right after the first delivered
host.  deliver models dialHost followed by smtpDialog for one host; the
returned list is the hosts contacted, in order. -/
def sendMailLoop (deliver : String → Bool) : List MXRecord → Bool × List String
  | [] => (false, [])
  | mx :: rest =>
    if deliver mx.host then (true, [mx.host])
    else
      let r := sendMailLoop deliver rest
      (r.1, mx.host :: r.2)

/-- src/internal/sender/sender.go, Sender.sendMail: resolve, sort, then
walk the MX records. -/
def Sender.sendMail (deliver : String → Bool) (records : List MXRecord) : Bool × List String :=
  sendMailLoop deliver (lookupMX records)

/-- A receive processor maps a ReceivedMessage to a ReceivedMessage or an
error (src/internal/sender preprocessing, type ReceiveProcessor). -/
def ReceiveProcessor : Type :=
  ReceivedMessage → Except String ReceivedMessage

/-- A pre-send processor maps a QueuedMessage to a QueuedMessage or an
error (type PreSendProcessor). -/
def PreSendProcessor : Type :=
  QueuedMessage → Except String QueuedMessage

/-- The MailOptions substitution at the top of consumeReceivingQueue:
replace a missing MailOptions with an empty one. -/
def withDefaultReceivedOpts (m : ReceivedMessage) : ReceivedMessage :=
  if m.mailOpts = none then { m with mailOpts := some emptyMailOptions } else m

/-- The receive-processor fold of consumeReceivingQueue: apply the
processors in order, the first error aborting; the second component
counts how many processors were invoked. -/
def runReceiveProcessors : List ReceiveProcessor → ReceivedMessage →
    Except String ReceivedMessage × Nat
  | [], m => (.ok m, 0)
  | p :: ps, m =>
    match p m with
    | .error e => (.error e, 1)
    | .ok m1 =>
      let r := runReceiveProcessors ps m1
      (r.1, r.2 + 1)

/-- The pre-send fold applied to one queued message: processors in order,
first error aborts. -/
def runPreSendProcessors : List PreSendProcessor → QueuedMessage → Except String QueuedMessage
  | [], q => .ok q
  | p :: ps, q =>
    match p q with
    | .error e => .error e
    | .ok q1 => runPreSendProcessors ps q1

/-- The per-message loop of consumeReceivingQueue over the fanned-out
queued messages: the first pre-send error aborts the worker. -/
def runPreSendAll (ps : List PreSendProcessor) : List QueuedMessage → Except String Unit
  | [] => .ok ()
  | q :: qs =>
    match runPreSendProcessors ps q with
    | .error e => .error ("failed to process queued msg: " ++ e)
    | .ok _ => runPreSendAll ps qs

/-- src/internal/sender (PreprocessorHandler.consumeReceivingQueue):
substitute empty MailOptions when absent, apply the receive processors in
order (first error aborts and is returned to the queue worker), fan out
one QueuedMessage per recipient via ReceivedMessage.QueuedMessages, then
apply the pre-send processors to each queued message.  The first
component is what the worker returns; the second is the fanned-out list
of queued messages (empty when a receive processor failed). -/
def consumeReceivingQueue (rps : List ReceiveProcessor) (pres : List PreSendProcessor)
    (now : Nat) (m0 : ReceivedMessage) : Except String Unit × List QueuedMessage :=
  let m1 := withDefaultReceivedOpts m0
  match (runReceiveProcessors rps m1).1 with
  | .error e => (.error ("failed to process received message: " ++ e), [])
  | .ok m2 =>
    let fanned := m2.queuedMessages now
    (runPreSendAll pres fanned, fanned)

/-- src/internal/sender (DkimProcessor): sign the full body and replace it
with the signed bytes; a signing failure aborts with an error.  sign
models dkim.Sign with the configured options. -/
def dkimProcessor (sign : List Nat → Except String (List Nat)) : ReceiveProcessor :=
  fun m =>
    match sign m.body with
    | .error e => .error ("failed to sign messag: " ++ e)
    | .ok signed => .ok { m with body := signed }

/-- The successful resources among a list of attempt outcomes, in
order. -/
def successResults {E R : Type} (outs : List (Except E R)) : List R :=
  outs.filterMap (fun o => match o with | .ok r => some r | .error _ => none)

/-- The errors among a list of attempt outcomes, in order. -/
def errorResults {E R : Type} (outs : List (Except E R)) : List E :=
  outs.filterMap (fun o => match o with | .ok _ => none | .error e => some e)

/-- Recursion of the resChan-favoring projection of resolveParallel over
the attempt outcomes in completion order, accumulating the errors seen
so far (newest first, as errChan delivers them). -/
def resolveParallelGo {E R : Type} : List (Except E R) → List E → Except (List E) R × List R
  | [], errs => (.error errs.reverse, [])
  | .error e :: rest, errs => resolveParallelGo rest (e :: errs)
  | .ok r :: rest, _ => (.ok r, successResults rest)

/-- One reachable execution of resolveParallel (src/unnamed/part_030,
lines 122-172): the schedule in which the main select fires as soon as
the first success is queued on resChan and every later success is sent
before the deferred close of resChan (so the drain goroutine closes it).
The attempt outcomes are taken in completion order; the first component
is the returned (result, error) pair, the second the resources handed to
Close.  The full schedule-indexed semantics, covering the select races
and the closed-channel crash path, is resolveParallelExec below. -/
def resolveParallel {E R : Type} (outs : List (Except E R)) : Except (List E) R × List R :=
  resolveParallelGo outs []

/-- Whether a success has completed, i.e. whether resChan holds at least
one buffered result. -/
def hasSuccess {E R : Type} : List (Except E R) → Bool
  | [] => false
  | .ok _ :: _ => true
  | .error _ :: rest => hasSuccess rest

/-- The first buffered success of resChan: the first successful outcome
in completion order. -/
def firstSuccess? {E R : Type} : List (Except E R) → Option R
  | [] => none
  | .ok r :: _ => some r
  | .error _ :: rest => firstSuccess? rest

/-- The successes buffered behind the first one: what the drain goroutine
receives after the winner is taken. -/
def successesAfterFirst {E R : Type} : List (Except E R) → List R
  | [] => []
  | .ok _ :: rest => successResults rest
  | .error _ :: rest => successesAfterFirst rest

/-- Split the successes that complete after resolveParallel has returned
by whether their send on resChan happens before the deferred close (then
the drain goroutine closes them) or after it (then the send hits a
closed channel and the goroutine crashes with a runtime panic).  A
missing flag defaults to the crash path. -/
def partitionLate {R : Type} : List Bool → List R → List R × List R
  | _, [] => ([], [])
  | [], r :: rest =>
    let p := partitionLate [] rest
    (p.1, r :: p.2)
  | f :: fs, r :: rest =>
    let p := partitionLate fs rest
    if f then (r :: p.1, p.2) else (p.1, r :: p.2)

/-- A schedule resolving the nondeterminism of resolveParallel
(src/unnamed/part_030, lines 122-172): selectAt is the number of attempts
that have completed when the main select resolves; takeWait picks the
waitChan case when both select cases are ready (Go chooses uniformly at
random); beatsClose says, for each success completing after the function
has returned, whether its resChan send happens before the deferred
close. -/
structure RaceSchedule where
  selectAt : Nat
  takeWait : Bool
  beatsClose : List Bool
deriving DecidableEq, Repr

/-- Decidable equality for attempt outcomes. -/
instance {E A : Type} [DecidableEq E] [DecidableEq A] : DecidableEq (Except E A) := fun x y =>
  match x, y with
  | .ok a, .ok b =>
    if h : a = b then isTrue (by rw [h]) else isFalse (fun hc => h (Except.ok.inj hc))
  | .error a, .error b =>
    if h : a = b then isTrue (by rw [h]) else isFalse (fun hc => h (Except.error.inj hc))
  | .ok _, .error _ => isFalse (fun hc => Except.noConfusion hc)
  | .error _, .ok _ => isFalse (fun hc => Except.noConfusion hc)

/-- The observable outcome of one execution of resolveParallel: the
returned value, the resources Close was called on (each exactly once),
the late successes whose send hit the already-closed resChan (a runtime
panic), and the successes left buffered in resChan and never closed when
the waitChan branch wins. -/
structure ResolveOutcome (E R : Type) where
  result : Except (List E) R
  closed : List R
  panicked : List R
  leaked : List R
deriving DecidableEq, Repr

/-- Schedule-indexed semantics of resolveParallel (src/unnamed/part_030,
lines 122-172).  The attempt outcomes are given in completion order.
None marks an impossible schedule (the select cannot resolve before one
of its cases is ready).  resChan has capacity len(attempts), so every
success completing before the select lands in its buffer; the select's
resChan case is ready iff that buffer is non-empty, the waitChan case
iff all attempts are done.  Taking resChan returns the first buffered
success and spawns the drain goroutine, which closes the other buffered
successes and any late success whose send beats the deferred close;
a late success losing that race panics on the closed channel.  Taking
waitChan returns errors.Join of the collected errors, and any buffered
successes are never drained or closed. -/
def resolveParallelExec {E R : Type} (outs : List (Except E R)) (sched : RaceSchedule) :
    Option (ResolveOutcome E R) :=
  if sched.selectAt > outs.length then none
  else if hasSuccess (outs.take sched.selectAt)
      && (!(decide (sched.selectAt = outs.length)) || !sched.takeWait) then
    match firstSuccess? (outs.take sched.selectAt) with
    | none => none
    | some winner =>
      some { result := .ok winner
             closed := successesAfterFirst (outs.take sched.selectAt)
               ++ (partitionLate sched.beatsClose (successResults (outs.drop sched.selectAt))).1
             panicked := (partitionLate sched.beatsClose (successResults (outs.drop sched.selectAt))).2
             leaked := [] }
  else if sched.selectAt = outs.length then
    some { result := .error (errorResults outs)
           closed := []
           panicked := []
           leaked := successResults outs }
  else none

/-- An SMTP client as smtp.NewClient builds it: a wrapper around the
(possibly nil) connection it was given. -/
structure SmtpClient where
  conn : Option Nat
deriving DecidableEq, Repr

/-- src/internal/sender/sender.go, the dialTls attempt closure of
Sender.dialHost: on a TLS dial failure the error is appended to the
shared error list, but the closure still returns smtp.NewClient(conn)
with conn = nil and a nil error.  dialResult models
tls.Dialer.Dial("tcp", address); the second component is what was
appended to errs. -/
def dialTlsAttempt (dialResult : Except String Nat) : Except String SmtpClient × List String :=
  match dialResult with
  | .error e => (.ok { conn := none }, [e])
  | .ok c => (.ok { conn := some c }, [])

/-- A concrete QueuedMessage whose error count already equals maxRetries,
used to exercise the giving-up branch of trySend. -/
def exhaustedMsg : QueuedMessage :=
  { fromAddr := "someone@sub.example.com"
    rcptTo := "else@example.com"
    body := [116, 101, 115, 116]
    mailOpts := some emptyMailOptions
    rcptOpt := none
    receivedAt := 0
    lastDeliveryAttempt := 0
    errorCount := 10
    lastErr := none }

/-- C1: the claim states that when a delivery attempt fails with
error_count already at max_retries (10), the engine logs the final
failure and does not re-enqueue.  The code does emit the giving-up log,
but the q.Queue call is unconditional, so the message IS re-enqueued,
with remaining_attempts = -1 and the usual 240 s delay: the second half
of the claim fails on the code. -/
theorem trySend_exhausted_still_requeues :
    (Sender.trySend 1000 (some "connection refused") exhaustedMsg).gaveUpLogged = true ∧
    (Sender.trySend 1000 (some "connection refused") exhaustedMsg).workerErr = none ∧
    (Sender.trySend 1000 (some "connection refused") exhaustedMsg).requeuedJob.isSome = true ∧
    ((Sender.trySend 1000 (some "connection refused") exhaustedMsg).requeuedJob.map
      (fun j => j.remainingAttempts)) = some (-1) ∧
    ((Sender.trySend 1000 (some "connection refused") exhaustedMsg).requeuedJob.map
      (fun j => j.executeAfter)) = some 1240 := by
  refine ⟨by decide, by decide, by decide, by decide, by decide⟩

/-- The sender whose allowed from address is alice@example.com for user
alice, as the unauthorized-sender scenario configures it. -/
def aliceOnlyValidSender : String → String → Bool :=
  fun u f => u == "alice" && f == "alice@example.com"

/-- A session in which alice has just authenticated and no MAIL command
has run yet. -/
def aliceFreshSession : Session :=
  { newSessionState with authenticatedSubject := "alice" }

/-- C2: the claim states the rejected MAIL FROM command fails with the
error string naming the from address given in the MAIL FROM command.  The
code builds the string from s.Msg.From, which is assigned only after the
check, so on the first MAIL command the interpolated address is the empty
string, not the address the client sent: the error reads "... as "
instead of "... as bob@example.com" (no message is enqueued either way,
since Mail never queues). -/
theorem mail_unauthorized_sender_error_stale_from :
    Session.mail aliceOnlyValidSender aliceFreshSession "bob@example.com" emptyMailOptions
      = .error "user alice is not allowed to send emails as " ∧
    ("user alice is not allowed to send emails as " : String)
      ≠ "user alice is not allowed to send emails as bob@example.com" := by
  refine ⟨rfl, by decide⟩

/-- C6 counterexample: for an unknown username, Authenticate returns the
distinct user-not-found error, not the unified invalid-credentials error,
so the claim that every failure yields the same error is false. -/
theorem authenticate_unknown_user_distinct :
    UserService.authenticate (D := Unit) (fun _ => none) (fun _ => none) (fun _ _ => false)
      "alice" "secret" = .error .userNotFound ∧
    (Except.error AuthError.userNotFound : Except AuthError Unit)
      ≠ .error .invalidCredentials := by
  refine ⟨rfl, by simp⟩

/-- C6 amended: digest-decode failures and password mismatches both
return the unified invalid-credentials error, but an unknown user
returns a distinct user-not-found error, so callers can distinguish an
unknown user from a wrong password. -/
theorem authenticate_error_taxonomy {D : Type} (users : String → Option UserConfig)
    (decode : String → Option D) (matchesDigest : D → String → Bool) (u p : String) :
    (users u = none →
      UserService.authenticate users decode matchesDigest u p = .error .userNotFound) ∧
    (∀ cfg, users u = some cfg → cfg.username = u → decode p = none →
      UserService.authenticate users decode matchesDigest u p = .error .invalidCredentials) ∧
    (∀ cfg d, users u = some cfg → cfg.username = u → decode p = some d →
      matchesDigest d p = false →
      UserService.authenticate users decode matchesDigest u p = .error .invalidCredentials) ∧
    AuthError.userNotFound ≠ AuthError.invalidCredentials := by
  refine ⟨?_, ?_, ?_, by decide⟩
  · intro h
    simp [UserService.authenticate, h]
  · intro cfg hu hname hdec
    simp [UserService.authenticate, hu, hname, hdec]
  · intro cfg d hu hname hdec hmatch
    simp [UserService.authenticate, hu, hname, hdec, hmatch]

/-- C6 amended, witnessed at a concrete user directory: bob is unknown
(user-not-found), alice with an undecodable digest gets
invalid-credentials. -/
theorem authenticate_error_taxonomy_witness :
    ((fun u => if u = "alice" then some { username := "alice", password := "x", fromAddr := "alice@example.com" } else none) "bob"
        = (none : Option UserConfig)) ∧
    UserService.authenticate (D := Unit)
      (fun u => if u = "alice" then some { username := "alice", password := "x", fromAddr := "alice@example.com" } else none)
      (fun _ => none) (fun _ _ => false) "bob" "pw" = .error .userNotFound := by
  refine ⟨by decide, ?_⟩
  exact (authenticate_error_taxonomy (D := Unit)
    (fun u => if u = "alice" then some { username := "alice", password := "x", fromAddr := "alice@example.com" } else none)
    (fun _ => none) (fun _ _ => false) "bob" "pw").1 (by decide)

/-- C10: in the implicit-TLS dial attempt, a failing TLS dial records the
error in the shared error list but the attempt still returns a client
wrapping a nil connection together with a nil error, and the parallel
resolver therefore treats the attempt as the winning success. -/
theorem dialTls_failure_reported_as_success (e : String) :
    dialTlsAttempt (.error e) = (.ok { conn := none }, [e]) ∧
    resolveParallel [(dialTlsAttempt (.error e)).1] = (.ok { conn := none }, []) := by
  refine ⟨rfl, rfl⟩

/-- C10 witnessed at a concrete dial error. -/
theorem dialTls_failure_reported_as_success_witness :
    dialTlsAttempt (.error "tls handshake failed") = (.ok { conn := none }, ["tls handshake failed"]) ∧
    resolveParallel [(dialTlsAttempt (.error "tls handshake failed")).1]
      = (.ok { conn := none }, []) :=
  dialTls_failure_reported_as_success "tls handshake failed"

/-- A session that declared SIZE = 2, one byte less than the 3-byte body
that follows. -/
def sizeTwoSession : Session :=
  { newSessionState with expectedBodySize := 2 }

/-- C3 counterexample: with declared SIZE = len(body) - 1 the limit reader
stops after SIZE bytes, the size check compares SIZE with SIZE and
passes, and the command is accepted and enqueues a message truncated to
the first SIZE bytes, where the claim demands rejection with no
enqueue. -/
theorem data_size_minus_one_accepted :
    Session.dataCmd none sizeTwoSession [97, 98, 99]
      = .ok ({ sizeTwoSession with msg := { sizeTwoSession.msg with body := [97, 98] } },
          [{ sizeTwoSession.msg with body := [97, 98] }]) := by
  rfl

/-- The accept branch of Session.Data for a declared positive SIZE: with
a good queue the command succeeds exactly when the number of bytes the
limit reader produced equals the declared size. -/
theorem dataCmd_pos_eq (s : Session) (stream : List Nat) (h : 0 < s.expectedBodySize) :
    Session.dataCmd none s stream =
      (if ((stream.take s.expectedBodySize.toNat).length : Int) = s.expectedBodySize then
        .ok ({ s with msg := { s.msg with body := stream.take s.expectedBodySize.toNat } },
          [{ s.msg with body := stream.take s.expectedBodySize.toNat }])
      else
        .error ("read only " ++ toString ((stream.take s.expectedBodySize.toNat).length : Int)
          ++ " body bytes, but expected " ++ toString s.expectedBodySize ++ " bytes")) := by
  unfold Session.dataCmd
  simp only [gt_iff_lt, if_pos h]
  by_cases hn : ((stream.take s.expectedBodySize.toNat).length : Int) = s.expectedBodySize
  · rw [if_neg (by exact fun hc => hc.2 hn), if_pos hn]
  · rw [if_pos ⟨h, hn⟩, if_neg hn]

/-- C3 amended: for a declared SIZE > 0 the command is accepted iff the
number of body bytes read equals SIZE, where the limit reader caps the
bytes read at SIZE; hence SIZE = len(body) is accepted and SIZE =
len(body) + 1 is rejected with no enqueue, but SIZE = len(body) - 1 is
accepted with the body truncated to its first SIZE bytes. -/
theorem data_size_check_boundaries (s : Session) (stream : List Nat)
    (hpos : 0 < s.expectedBodySize) :
    ((Session.dataCmd none s stream).isOk = true ↔
      ((stream.take s.expectedBodySize.toNat).length : Int) = s.expectedBodySize) ∧
    (s.expectedBodySize = (stream.length : Int) →
      (Session.dataCmd none s stream).isOk = true) ∧
    (s.expectedBodySize = (stream.length : Int) + 1 →
      (Session.dataCmd none s stream).isOk = false) ∧
    (s.expectedBodySize = (stream.length : Int) - 1 →
      (Session.dataCmd none s stream).isOk = true ∧
      (∀ s2 msgs, Session.dataCmd none s stream = .ok (s2, msgs) →
        msgs.map (fun m => m.body) = [stream.take (stream.length - 1)])) := by
  rw [dataCmd_pos_eq s stream hpos]
  have hlen : (stream.take s.expectedBodySize.toNat).length
      = min s.expectedBodySize.toNat stream.length := by
    simp [List.length_take]
  refine ⟨?_, ?_, ?_, ?_⟩
  · by_cases hn : ((stream.take s.expectedBodySize.toNat).length : Int) = s.expectedBodySize
    · rw [if_pos hn]
      exact iff_of_true rfl hn
    · rw [if_neg hn]
      exact iff_of_false (fun hfalse => Bool.noConfusion hfalse) hn
  · intro hE
    have hn : ((stream.take s.expectedBodySize.toNat).length : Int) = s.expectedBodySize := by
      rw [hlen]
      omega
    rw [if_pos hn]
    rfl
  · intro hE
    have hn : ((stream.take s.expectedBodySize.toNat).length : Int) ≠ s.expectedBodySize := by
      rw [hlen]
      push_cast
      omega
    rw [if_neg hn]
    rfl
  · intro hE
    have hL : 2 ≤ stream.length := by omega
    have hn : ((stream.take s.expectedBodySize.toNat).length : Int) = s.expectedBodySize := by
      rw [hlen]
      omega
    have htk : s.expectedBodySize.toNat = stream.length - 1 := by omega
    rw [if_pos hn]
    refine ⟨rfl, ?_⟩
    intro s2 msgs hok
    cases hok
    simp [htk]

/-- C3 amended, witnessed at SIZE = 3 with the 3-byte body [1, 2, 3]
(the accepted boundary). -/
theorem data_size_check_boundaries_witness :
    0 < ({ newSessionState with expectedBodySize := 3 } : Session).expectedBodySize ∧
    (Session.dataCmd none { newSessionState with expectedBodySize := 3 } [1, 2, 3]).isOk = true := by
  refine ⟨by decide, ?_⟩
  exact (data_size_check_boundaries { newSessionState with expectedBodySize := 3 } [1, 2, 3]
    (by decide)).2.1 (by decide)

/-- The MailOptions substitution leaves the error count unchanged. -/
theorem withDefaultMailOpts_errorCount (msg : QueuedMessage) :
    (withDefaultMailOpts msg).errorCount = msg.errorCount := by
  unfold withDefaultMailOpts
  split <;> rfl

/-- The message as mutated by the failure branch of trySend: LastErr set
and ErrorCount incremented. -/
def bumpedMsg (e : String) (msg : QueuedMessage) : QueuedMessage :=
  { withDefaultMailOpts msg with
    lastErr := some e
    errorCount := (withDefaultMailOpts msg).errorCount + 1 }

/-- The bumped error count is the original plus one. -/
theorem bumpedMsg_errorCount (e : String) (msg : QueuedMessage) :
    (bumpedMsg e msg).errorCount = msg.errorCount + 1 := by
  show (withDefaultMailOpts msg).errorCount + 1 = msg.errorCount + 1
  rw [withDefaultMailOpts_errorCount]

/-- Characterization of the failure branch of Sender.trySend. -/
theorem trySend_some_eq (now : Int) (e : String) (msg : QueuedMessage) :
    Sender.trySend now (some e) msg =
      { msg := bumpedMsg e msg
        gaveUpLogged := decide (maxRetries ≤ (bumpedMsg e msg).errorCount)
        requeuedJob := some
          { queueName := "send.queue"
            payload := bumpedMsg e msg
            remainingAttempts := maxRetries - (bumpedMsg e msg).errorCount
            executeAfter := now + defaultRetryPeriodSeconds }
        workerErr := none } := rfl

/-- C4: a failed delivery with error_count still below max_retries
records the error in LastErr, increments ErrorCount by exactly one,
returns nil to the queue worker, and requeues a job with
remaining_attempts = maxRetries - error_count (the updated count) and
execute_after = now + 240 s, not executable before then. -/
theorem trySend_retry_accounting (now : Int) (e : String) (msg : QueuedMessage)
    (h : msg.errorCount < maxRetries) :
    (Sender.trySend now (some e) msg).msg.lastErr = some e ∧
    (Sender.trySend now (some e) msg).msg.errorCount = msg.errorCount + 1 ∧
    (Sender.trySend now (some e) msg).workerErr = none ∧
    (∃ job : Job QueuedMessage,
      (Sender.trySend now (some e) msg).requeuedJob = some job ∧
      job.remainingAttempts = maxRetries - (msg.errorCount + 1) ∧
      0 ≤ job.remainingAttempts ∧
      job.executeAfter = now + defaultRetryPeriodSeconds ∧
      (∀ t : Int, t < now + defaultRetryPeriodSeconds → job.executableAt t = false)) := by
  rw [trySend_some_eq]
  refine ⟨rfl, ?_, rfl, ?_⟩
  · show (bumpedMsg e msg).errorCount = msg.errorCount + 1
    rw [bumpedMsg_errorCount]
  refine ⟨_, rfl, ?_, ?_, rfl, ?_⟩
  · show maxRetries - (bumpedMsg e msg).errorCount = maxRetries - (msg.errorCount + 1)
    rw [bumpedMsg_errorCount]
  · show 0 ≤ maxRetries - (bumpedMsg e msg).errorCount
    rw [bumpedMsg_errorCount]
    unfold maxRetries at h ⊢
    omega
  · intro t ht
    simp only [Job.executableAt, decide_eq_false_iff_not]
    omega

/-- C4 witnessed at a concrete first failure: error count goes from 0 to
1 and the requeued job carries nine remaining attempts and a 240 s
delay. -/
theorem trySend_retry_accounting_witness :
    ({ exhaustedMsg with errorCount := 0 } : QueuedMessage).errorCount < maxRetries ∧
    (Sender.trySend 100 (some "dial failed") { exhaustedMsg with errorCount := 0 }).msg.errorCount
      = ({ exhaustedMsg with errorCount := 0 } : QueuedMessage).errorCount + 1 := by
  refine ⟨by decide, ?_⟩
  exact (trySend_retry_accounting 100 "dial failed" { exhaustedMsg with errorCount := 0 }
    (by decide)).2.1

/-- The success flag of Backend.NewSession is exactly the admission
predicate. -/
theorem newSession_isOk_eq (nets : List IPNet) (addr : Option Nat) :
    (Backend.newSession nets addr).isOk = isValidRemoteAddr nets addr := by
  unfold Backend.newSession
  cases hb : isValidRemoteAddr nets addr <;> simp [hb, Except.isOk, Except.toBool]

/-- C7: creating a session for a peer whose address parses to the IP P
succeeds iff P belongs to some network of the CIDR allowlist C or C is
empty; otherwise the connection is refused at session construction. -/
theorem newSession_admission (nets : List IPNet) (ip : Nat) :
    (Backend.newSession nets (some ip)).isOk = true ↔
      (nets = [] ∨ ∃ n ∈ nets, n.containsIP ip = true) := by
  rw [newSession_isOk_eq]
  unfold isValidRemoteAddr
  cases nets with
  | nil => simp
  | cons a l => simp [List.any_eq_true]

/-- The MailOptions substitution leaves the body unchanged. -/
theorem withDefaultReceivedOpts_body (m : ReceivedMessage) :
    (withDefaultReceivedOpts m).body = m.body := by
  unfold withDefaultReceivedOpts
  split <;> rfl

/-- The MailOptions substitution leaves the recipients unchanged. -/
theorem withDefaultReceivedOpts_rcptTo (m : ReceivedMessage) :
    (withDefaultReceivedOpts m).rcptTo = m.rcptTo := by
  unfold withDefaultReceivedOpts
  split <;> rfl

/-- The received message with its body replaced by the signed bytes, as
the DKIM processor leaves it. -/
def signedMsg (m : ReceivedMessage) (signed : List Nat) : ReceivedMessage :=
  { fromAddr := m.fromAddr, rcptTo := m.rcptTo, body := signed, mailOpts := m.mailOpts }

/-- C5: when the DKIM signer is the configured receive processor and it
signs the body successfully, it runs exactly once before fan-out, and
the pipeline fans out exactly one QueuedMessage per recipient of the
received message, each with the signed body and error_count = 0. -/
theorem pipeline_fanout_signed (sign : List Nat → Except String (List Nat))
    (pres : List PreSendProcessor) (now : Nat) (m0 : ReceivedMessage) (signed : List Nat)
    (hsign : sign m0.body = .ok signed) :
    (runReceiveProcessors [dkimProcessor sign] (withDefaultReceivedOpts m0)).2 = 1 ∧
    (consumeReceivingQueue [dkimProcessor sign] pres now m0).2.length = m0.rcptTo.length ∧
    (consumeReceivingQueue [dkimProcessor sign] pres now m0).2.map (fun q => q.rcptTo)
      = m0.rcptTo.map (fun t => t.rcptTo) ∧
    (∀ q ∈ (consumeReceivingQueue [dkimProcessor sign] pres now m0).2,
      q.body = signed ∧ q.errorCount = 0) := by
  have hrun : runReceiveProcessors [dkimProcessor sign] (withDefaultReceivedOpts m0)
      = (.ok (signedMsg (withDefaultReceivedOpts m0) signed), 1) := by
    simp [runReceiveProcessors, dkimProcessor, withDefaultReceivedOpts_body m0, hsign, signedMsg]
  have hfan : (consumeReceivingQueue [dkimProcessor sign] pres now m0).2
      = (signedMsg (withDefaultReceivedOpts m0) signed).queuedMessages now := by
    show ((match (runReceiveProcessors [dkimProcessor sign] (withDefaultReceivedOpts m0)).1 with
      | Except.error e => ((Except.error ("failed to process received message: " ++ e) : Except String Unit), ([] : List QueuedMessage))
      | Except.ok m2 => (runPreSendAll pres (m2.queuedMessages now), m2.queuedMessages now)).2)
      = (signedMsg (withDefaultReceivedOpts m0) signed).queuedMessages now
    rw [hrun]
  refine ⟨by rw [hrun], ?_, ?_, ?_⟩
  · rw [hfan]
    simp [ReceivedMessage.queuedMessages, signedMsg, withDefaultReceivedOpts_rcptTo m0]
  · rw [hfan]
    simp [ReceivedMessage.queuedMessages, signedMsg, List.map_map, Function.comp,
      withDefaultReceivedOpts_rcptTo m0]
  · intro q hq
    rw [hfan] at hq
    simp only [ReceivedMessage.queuedMessages, List.mem_map] at hq
    obtain ⟨t, _, rfl⟩ := hq
    exact ⟨rfl, rfl⟩

/-- A concrete received message with two recipients used to witness the
pipeline fan-out. -/
def twoRcptMessage : ReceivedMessage :=
  { fromAddr := "alice@example.com"
    rcptTo := [{ rcptTo := "a@x.test", rcptOpts := none }, { rcptTo := "b@y.test", rcptOpts := none }]
    body := [104, 105]
    mailOpts := none }

/-- C5 witnessed at a two-recipient message with a signer that prepends
one byte: two queued messages come out, one per recipient. -/
theorem pipeline_fanout_signed_witness :
    (fun b => Except.ok (0 :: b) : List Nat → Except String (List Nat)) twoRcptMessage.body
      = .ok (0 :: twoRcptMessage.body) ∧
    (consumeReceivingQueue [dkimProcessor (fun b => .ok (0 :: b))] [] 7 twoRcptMessage).2.length
      = twoRcptMessage.rcptTo.length := by
  refine ⟨rfl, ?_⟩
  exact (pipeline_fanout_signed (fun b => .ok (0 :: b)) [] 7 twoRcptMessage
    (0 :: twoRcptMessage.body) rfl).2.1

/-- With only errors completed, resChan stays empty. -/
theorem hasSuccess_eq_false {E R : Type} (l : List (Except E R))
    (h : ∀ x ∈ l, ∃ e, x = .error e) : hasSuccess l = false := by
  induction l with
  | nil => rfl
  | cons x xs ih =>
    obtain ⟨e, rfl⟩ := h x (by simp)
    exact ih (fun y hy => h y (by simp [hy]))

/-- With only errors, no successful resources exist. -/
theorem successResults_all_error {E R : Type} (l : List (Except E R))
    (h : ∀ x ∈ l, ∃ e, x = .error e) : successResults l = [] := by
  induction l with
  | nil => rfl
  | cons x xs ih =>
    obtain ⟨e, rfl⟩ := h x (by simp)
    exact ih (fun y hy => h y (by simp [hy]))

/-- A completed success makes resChan non-empty. -/
theorem hasSuccess_append_ok {E R : Type} (r : R) (post : List (Except E R)) :
    ∀ pre : List (Except E R), hasSuccess (pre ++ .ok r :: post) = true
  | [] => rfl
  | .ok _ :: _ => rfl
  | .error _ :: xs => hasSuccess_append_ok r post xs

/-- The first buffered success after a prefix of errors. -/
theorem firstSuccess?_append_errors {E R : Type} (r : R) (post : List (Except E R)) :
    ∀ pre : List (Except E R), (∀ x ∈ pre, ∃ e, x = .error e) →
      firstSuccess? (pre ++ .ok r :: post) = some r
  | [], _ => rfl
  | x :: xs, hpre => by
    obtain ⟨e, rfl⟩ := hpre x (by simp)
    exact firstSuccess?_append_errors r post xs (fun y hy => hpre y (by simp [hy]))

/-- The successes buffered behind the first one, after a prefix of
errors, are exactly the successes completing later. -/
theorem successesAfterFirst_append_errors {E R : Type} (r : R) (post : List (Except E R)) :
    ∀ pre : List (Except E R), (∀ x ∈ pre, ∃ e, x = .error e) →
      successesAfterFirst (pre ++ .ok r :: post) = successResults post
  | [], _ => rfl
  | x :: xs, hpre => by
    obtain ⟨e, rfl⟩ := hpre x (by simp)
    exact successesAfterFirst_append_errors r post xs (fun y hy => hpre y (by simp [hy]))

/-- C8 counterexample: the claimed contract does not hold of every
execution of resolveParallel.  First conjunct: with a success and an
error both completed, the closed waitChan can win the select, so the
resolver returns the joined errors even though an attempt succeeded,
and the successful resource is never closed (it stays buffered in the
closed resChan).  Second conjunct: a success completing after the winner
has been returned can lose the race against the deferred close of
resChan, in which case its send panics instead of the resource being
closed. -/
theorem resolveParallel_race_counterexample :
    resolveParallelExec ([.ok 1, .error "a"] : List (Except String Nat))
        { selectAt := 2, takeWait := true, beatsClose := [] }
      = some { result := .error ["a"], closed := [], panicked := [], leaked := [1] } ∧
    resolveParallelExec ([.ok 1, .ok 2] : List (Except String Nat))
        { selectAt := 1, takeWait := false, beatsClose := [false] }
      = some { result := .ok 1, closed := [], panicked := [2], leaked := [] } := by
  refine ⟨rfl, rfl⟩

/-- C8 amended: if all attempts fail, every completing execution of the
resolver returns the aggregation (join) of all the attempt errors, with
nothing closed, leaked or panicking, and this outcome is reachable; if
at least one attempt succeeds, the originally claimed contract (first
success returned with nil error, every other completed success closed)
is a reachable outcome, but not the only one. -/
theorem resolveParallel_exec_contract {E R : Type} (outs : List (Except E R)) :
    ((∀ x ∈ outs, ∃ e, x = .error e) →
      (∀ (sched : RaceSchedule) (b : ResolveOutcome E R),
        resolveParallelExec outs sched = some b →
        b = { result := .error (errorResults outs), closed := [], panicked := [], leaked := [] }) ∧
      resolveParallelExec outs { selectAt := outs.length, takeWait := true, beatsClose := [] }
        = some
          { result := .error (errorResults outs)
            closed := []
            panicked := []
            leaked := [] }) ∧
    (∀ (pre : List (Except E R)) (r : R) (post : List (Except E R)),
      outs = pre ++ .ok r :: post →
      (∀ x ∈ pre, ∃ e, x = .error e) →
      resolveParallelExec outs { selectAt := outs.length, takeWait := false, beatsClose := [] }
        = some
          { result := .ok r
            closed := successResults post
            panicked := []
            leaked := [] }) := by
  constructor
  · intro hall
    constructor
    · intro sched b hb
      unfold resolveParallelExec at hb
      by_cases hk : sched.selectAt > outs.length
      · rw [if_pos hk] at hb
        exact absurd hb (by simp)
      · rw [if_neg hk] at hb
        rw [hasSuccess_eq_false (outs.take sched.selectAt)
          (fun x hx => hall x (List.take_subset _ _ hx))] at hb
        simp only [Bool.false_and] at hb
        rw [if_neg (fun hc => Bool.noConfusion hc)] at hb
        by_cases hn : sched.selectAt = outs.length
        · rw [if_pos hn, successResults_all_error outs hall] at hb
          exact (Option.some.inj hb).symm
        · rw [if_neg hn] at hb
          exact absurd hb (by simp)
    · unfold resolveParallelExec
      rw [if_neg (lt_irrefl outs.length), List.take_length,
        hasSuccess_eq_false outs hall]
      simp only [Bool.false_and]
      rw [if_neg (fun hc => Bool.noConfusion hc)]
      simp [successResults_all_error outs hall]
  · intro pre r post hsplit hpre
    subst hsplit
    unfold resolveParallelExec
    rw [if_neg (lt_irrefl (pre ++ .ok r :: post).length), List.take_length,
      hasSuccess_append_ok r post pre]
    rw [if_pos (by simp), firstSuccess?_append_errors r post pre hpre,
      successesAfterFirst_append_errors r post pre hpre, List.drop_length]
    simp [partitionLate, successResults]

/-- C8 amended, witnessed: two failing attempts return the joined errors
with nothing closed, and an error followed by two successes can return
the first success with the later one closed. -/
theorem resolveParallel_exec_contract_witness :
    (∀ x ∈ ([.error "a", .error "b"] : List (Except String Nat)), ∃ e, x = .error e) ∧
    resolveParallelExec ([.error "a", .error "b"] : List (Except String Nat))
        { selectAt := 2, takeWait := true, beatsClose := [] }
      = some { result := .error ["a", "b"], closed := [], panicked := [], leaked := [] } ∧
    resolveParallelExec ([.error "a", .ok 1, .ok 2] : List (Except String Nat))
        { selectAt := 3, takeWait := false, beatsClose := [] }
      = some { result := .ok 1, closed := [2], panicked := [], leaked := [] } := by
  have herr : ∀ x ∈ ([.error "a", .error "b"] : List (Except String Nat)), ∃ e, x = .error e := by
    intro x hx
    rcases List.mem_cons.mp hx with rfl | hx2
    · exact ⟨"a", rfl⟩
    rcases List.mem_cons.mp hx2 with rfl | hx3
    · exact ⟨"b", rfl⟩
    exact absurd hx3 (List.not_mem_nil x)
  refine ⟨herr, ?_, ?_⟩
  · exact (resolveParallel_exec_contract
      ([.error "a", .error "b"] : List (Except String Nat))).1 herr |>.2
  · exact (resolveParallel_exec_contract
      ([.error "a", .ok 1, .ok 2] : List (Except String Nat))).2
      [.error "a"] 1 [.ok 2] rfl
      (by intro x hx
          rcases List.mem_cons.mp hx with rfl | hx2
          · exact ⟨"a", rfl⟩
          exact absurd hx2 (List.not_mem_nil x))

/-- The delivery loop stops at the first host that accepts the message
and contacts no host after it. -/
theorem sendMailLoop_first_success (deliver : String → Bool) (m : MXRecord)
    (post : List MXRecord) :
    ∀ pre : List MXRecord, (∀ x ∈ pre, deliver x.host = false) → deliver m.host = true →
      sendMailLoop deliver (pre ++ m :: post) = (true, pre.map (fun x => x.host) ++ [m.host])
  | [], _, hm => by
    simp [sendMailLoop, hm]
  | x :: xs, hpre, hm => by
    have hx : deliver x.host = false := hpre x (by simp)
    have ih := sendMailLoop_first_success deliver m post xs
      (fun y hy => hpre y (by simp [hy])) hm
    simp [sendMailLoop, hx, ih]

/-- C9: lookupMX returns the MX records sorted by preference ascending
(a permutation of the input), and the delivery engine walks them lowest
preference first, returning success immediately after the first host
that takes the message, contacting no further MX host. -/
theorem mx_sorted_first_success (deliver : String → Bool) (records : List MXRecord) :
    List.Sorted (fun a b => a.pref ≤ b.pref) (lookupMX records) ∧
    (lookupMX records).Perm records ∧
    (∀ (pre : List MXRecord) (m : MXRecord) (post : List MXRecord),
      lookupMX records = pre ++ m :: post →
      (∀ x ∈ pre, deliver x.host = false) →
      deliver m.host = true →
      Sender.sendMail deliver records = (true, pre.map (fun x => x.host) ++ [m.host])) := by
  haveI : IsTotal MXRecord (fun a b => a.pref ≤ b.pref) :=
    ⟨fun a b => Nat.le_total a.pref b.pref⟩
  haveI : IsTrans MXRecord (fun a b => a.pref ≤ b.pref) :=
    ⟨fun _ _ _ hab hbc => Nat.le_trans hab hbc⟩
  refine ⟨List.sorted_insertionSort _ _, List.perm_insertionSort _ _, ?_⟩
  intro pre m post hsplit hpre hm
  unfold Sender.sendMail
  rw [hsplit]
  exact sendMailLoop_first_success deliver m post pre hpre hm

/-- C9 witnessed at two records given in descending preference: the sort
puts preference 10 first, delivery fails there and succeeds at the
preference 20 host. -/
theorem mx_sorted_first_success_witness :
    lookupMX [{ host := "b", pref := 20 }, { host := "a", pref := 10 }]
      = [{ host := "a", pref := 10 }] ++ { host := "b", pref := 20 } :: [] ∧
    Sender.sendMail (fun h => h == "b") [{ host := "b", pref := 20 }, { host := "a", pref := 10 }]
      = (true, ["a", "b"]) := by
  refine ⟨by decide, ?_⟩
  exact (mx_sorted_first_success (fun h => h == "b")
    [{ host := "b", pref := 20 }, { host := "a", pref := 10 }]).2.2
    [{ host := "a", pref := 10 }] { host := "b", pref := 20 } [] (by decide) (by decide)
    (by decide)

end Smolmailer
